import Mathlib

/-!
Verification of the Orbital Sentinel CRE AI analysis endpoint
(`src/platform/cre_analyze_endpoint.py`).

Python strings are modelled as lists of characters (`PyStr`), so that the
string operations the endpoint uses (`strip`, `split`, `startswith`, slicing)
become structurally recursive Lean functions that can be both executed and
reasoned about.  Numeric JSON values are modelled as rationals; CPython format
specifiers such as `:.1f` and `:,.0f` round half-to-even on the decimal value,
which is what `pyFixed`/`pyCommaFixed` implement.
-/

/-- Python strings as lists of characters. -/
abbrev PyStr := List Char

/-- Embed a Lean string literal as a `PyStr`. -/
def pys (s : String) : PyStr := s.toList

/-- Whitespace test used by Python's `str.strip` (ASCII fragment). -/
def isPySpace (c : Char) : Bool := c.isWhitespace

/-- Model of Python `str.strip()`: drop whitespace from both ends. -/
def pyStrip (s : PyStr) : PyStr :=
  (((s.dropWhile isPySpace).reverse).dropWhile isPySpace).reverse

/-- Model of Python `str.upper()` (ASCII fragment). -/
def pyUpper (s : PyStr) : PyStr := s.map Char.toUpper

/-- Worker for `pySplit`: scan for the next occurrence of `sep`, accumulating
the current chunk in reverse.  The fuel argument only bounds the recursion;
`pySplit` supplies enough fuel that it is never exhausted. -/
def pySplitAux (sep : PyStr) : Nat → PyStr → PyStr → List PyStr
  | _, [], acc => [acc.reverse]
  | 0, s, acc => [acc.reverse ++ s]
  | fuel+1, c :: rest, acc =>
    if sep.isPrefixOf (c :: rest) then
      acc.reverse :: pySplitAux sep fuel (List.drop sep.length (c :: rest)) []
    else
      pySplitAux sep fuel rest (c :: acc)

/-- Model of Python `str.split(sep)` for a nonempty separator (Python raises
on an empty separator; that case is never exercised by the endpoint). -/
def pySplit (sep s : PyStr) : List PyStr :=
  if sep.isEmpty then [s] else pySplitAux sep s.length s []

/-- Does `p` occur as a contiguous run anywhere in `s`?  Executable occurrence
test used to state the fence-transparency hypothesis. -/
def hasOcc (p : PyStr) : PyStr → Bool
  | [] => p.isEmpty
  | c :: rest => p.isPrefixOf (c :: rest) || hasOcc p rest

/-- The code-fence extraction step shared by both endpoints
(`analyze` lines 171-176 and `analyze_arb` lines 307-312):
strip whitespace; if the text starts with a triple backtick, keep the portion
between the first pair of fences, drop an optional leading `json` tag, and
strip again.  The Python code indexes `text.split("```")[1]`, which is
modelled with `getD 1 []`; whenever the guard holds the split has at least
two parts, so the default is never used. -/
def extractJson (raw : PyStr) : PyStr :=
  let text := pyStrip raw
  if (pys ("```")).isPrefixOf text then
    let t1 := (pySplit (pys ("```")) text).getD 1 []
    let t2 := if (pys ("json")).isPrefixOf t1 then t1.drop 4 else t1
    pyStrip t2
  else text

example : pySplit (pys ("```")) (pys ("```json\nx\n```")) =
    [[], pys ("json\nx\n"), []] := by decide

example : extractJson (pys ("```json\n\x7b\x7d\n```")) = pys ("\x7b\x7d") := by decide

example : extractJson (pys ("```")) = [] := by decide

example : extractJson (pys ("  \x7b\x7d  ")) = pys ("\x7b\x7d") := by decide

/-- Little-endian decimal digits of a natural number, with explicit fuel so
that the definition is structurally recursive (fuel `n+1` always suffices). -/
def digitsRevA : Nat → Nat → List Char
  | 0, _ => []
  | fuel+1, n =>
    if n < 10 then [Nat.digitChar n]
    else Nat.digitChar (n % 10) :: digitsRevA fuel (n / 10)

/-- Little-endian decimal digits of `n`. -/
def digitsRev (n : Nat) : List Char := digitsRevA (n + 1) n

/-- Model of Python `str(n)` for a natural number. -/
def natStr (n : Nat) : PyStr := (digitsRev n).reverse

/-- Exactly `m` little-endian decimal digits of `b` (leading zeros kept). -/
def fixedDigitsRev : Nat → Nat → List Char
  | 0, _ => []
  | m+1, b => Nat.digitChar (b % 10) :: fixedDigitsRev m (b / 10)

/-- Exactly `m` decimal digits of `b`, most significant first. -/
def fixedDigits (m b : Nat) : PyStr := (fixedDigitsRev m b).reverse

/-- Insert a comma after every three little-endian digits. -/
def commaRev : List Char → List Char
  | a :: b :: c :: d :: rest => a :: b :: c :: ',' :: commaRev (d :: rest)
  | l => l

/-- Thousands-separated rendering of a natural number (Python `f"{n:,}"`). -/
def natThousands (n : Nat) : PyStr := (commaRev (digitsRev n)).reverse

/-- Thousands-separated rendering of an integer (Python `f"{n:,}"`). -/
def formatThousandsInt (n : Int) : PyStr :=
  (if n < 0 then pys ("-") else []) ++ natThousands n.natAbs

/-- Floor of a rational as an integer (numerator divided by the positive
denominator with Euclidean division, which floors). -/
def ratFloor (q : Rat) : Int := q.num / (q.den : Int)

/-- Absolute value of a rational, written without the lattice instances so
that it evaluates inside the kernel. -/
def ratAbs (q : Rat) : Rat := if q < 0 then -q else q

/-- Round a rational to the nearest integer, ties to even — the rounding CPython
applies when formatting with a fixed number of decimal places. -/
def roundHalfEven (q : Rat) : Int :=
  let f := ratFloor q
  let r := q - (f : Rat)
  if r < 1/2 then f
  else if 1/2 < r then f + 1
  else if f % 2 = 0 then f else f + 1

/-- Model of the Python format specifier `:.{prec}f` on a numeric value. -/
def pyFixed (prec : Nat) (q : Rat) : PyStr :=
  let sign := if q < 0 then pys ("-") else []
  let n := (roundHalfEven (ratAbs q * (10 : Rat) ^ prec)).toNat
  if prec = 0 then sign ++ natStr n
  else sign ++ natStr (n / 10 ^ prec) ++ pys (".") ++ fixedDigits prec (n % 10 ^ prec)

/-- Model of the Python format specifier `:,.{prec}f` (thousands separators in
the whole part). -/
def pyCommaFixed (prec : Nat) (q : Rat) : PyStr :=
  let sign := if q < 0 then pys ("-") else []
  let n := (roundHalfEven (ratAbs q * (10 : Rat) ^ prec)).toNat
  if prec = 0 then sign ++ natThousands n
  else sign ++ natThousands (n / 10 ^ prec) ++ pys (".") ++ fixedDigits prec (n % 10 ^ prec)

/-- Valid digit run for Python `int(...)` after the first digit: single
underscores are allowed between digits only. -/
def pyDigCore : List Char → Bool
  | [] => true
  | '_' :: c :: cs => c.isDigit && pyDigCore (c :: cs)
  | c :: cs => c.isDigit && pyDigCore cs

/-- Numeric value of a digit run (underscores already removed). -/
def digitsToNat (l : PyStr) : Nat := l.foldl (fun a c => 10 * a + (c.toNat - 48)) 0

/-- Model of Python `int(s)` on strings: surrounding whitespace, an optional
sign, then decimal digits with optional single underscore separators.
Returns `none` where CPython raises `ValueError`. -/
def parseIntPy (s : PyStr) : Option Int :=
  let t := pyStrip s
  let sd : Int × PyStr :=
    match t with
    | '-' :: r => (-1, r)
    | '+' :: r => (1, r)
    | _ => (1, t)
  match sd.2 with
  | [] => none
  | c :: _ =>
    if c.isDigit && pyDigCore sd.2 then
      some (sd.1 * (digitsToNat (sd.2.filter (fun ch => ch ≠ '_')) : Nat))
    else none

/-- `formatUnits_py` (source lines 278-285): parse the string as an integer,
split it at `10 ^ decimals` using Python floor division and modulo (for the
positive modulus used here these agree with `Int.ediv`/`Int.emod`, which is
what Lean's `/` and `%` on `Int` denote), and render
`f"{whole:,}.{str(frac).zfill(decimals)[:2]}"`.  On a parse failure the input
is returned unchanged. -/
def formatUnits_py (value_str : PyStr) (decimals : Nat) : PyStr :=
  match parseIntPy value_str with
  | none => value_str
  | some val =>
    let whole : Int := val / ((10 : Int) ^ decimals)
    let frac : Int := val % ((10 : Int) ^ decimals)
    formatThousandsInt whole ++ pys (".") ++
      (List.replicate (decimals - (natStr frac.toNat).length) '0' ++ natStr frac.toNat).take 2

/-- Formalisation of the claim's words for the base-unit conversion: the
thousands-separated whole part of `|v| / 10^18`, a dot, and the first two
digits of the 18-digit fractional expansion of `|v|` — i.e. truncation (not
rounding) toward zero at two fractional digits — with a leading minus sign
for negative values. -/
def truncUnitsSpec (v : Int) : PyStr :=
  (if v < 0 then pys ("-") else []) ++ natThousands (v.natAbs / 10 ^ 18) ++ pys (".") ++
    List.replicate (2 - (natStr (v.natAbs % 10 ^ 18 / 10 ^ 16)).length) '0' ++
      natStr (v.natAbs % 10 ^ 18 / 10 ^ 16)

example : parseIntPy (pys ("1500000000000000000000")) = some 1500000000000000000000 := by decide

example : formatUnits_py (pys ("1500000000000000000000")) 18 = pys ("1,500.00") := by decide

example : formatUnits_py (pys ("abc")) 18 = pys ("abc") := by decide

example : formatUnits_py (pys ("-1")) 18 = pys ("-1.99") := by decide

example : truncUnitsSpec (-1) = pys ("-0.00") := by decide

example : pyFixed 1 0 = pys ("0.0") := by with_unfolding_all rfl

example : pyFixed 0 0 = pys ("0") := by with_unfolding_all rfl

example : pyCommaFixed 0 (1234567 : Rat) = pys ("1,234,567") := by with_unfolding_all rfl

example : pyFixed 1 (871/10 : Rat) = pys ("87.1") := by with_unfolding_all rfl

/-- JSON values as produced by Python's `json.loads`.  Integer and float
literals are distinguished the way CPython distinguishes them (an `int` for a
literal without fraction or exponent, a `float` otherwise); floats are
modelled exactly as rationals.  The non-standard `NaN`/`Infinity` extension
of CPython's decoder has no rational counterpart and is outside the model. -/
inductive JValue where
  | jnull
  | jbool (b : Bool)
  | jint (n : Int)
  | jnum (q : Rat)
  | jstr (s : PyStr)
  | jarr (xs : List JValue)
  | jobj (kvs : List (PyStr × JValue))

/-- Result of a sub-parser: a value plus the unconsumed input, or a message. -/
inductive PRes (α : Type) where
  | ok (val : α) (rest : PyStr)
  | err (msg : PyStr)

/-- Result of `pyJsonLoads`. -/
inductive JOut where
  | ok (v : JValue)
  | err (msg : PyStr)

/-- JSON whitespace accepted by the decoder. -/
def isJsonWs (c : Char) : Bool := c = ' ' || c = '\t' || c = '\n' || c = '\r'

/-- Skip JSON whitespace. -/
def skipJWs (s : PyStr) : PyStr := s.dropWhile isJsonWs

/-- Hexadecimal digit value. -/
def parseHex (c : Char) : Option Nat :=
  if c.isDigit then some (c.toNat - 48)
  else if 'a' ≤ c ∧ c ≤ 'f' then some (c.toNat - 87)
  else if 'A' ≤ c ∧ c ≤ 'F' then some (c.toNat - 55)
  else none

/-- Single-character JSON escapes. -/
def escChar : Char → Option Char
  | '"' => some '"'
  | '\\' => some '\\'
  | '/' => some '/'
  | 'b' => some (Char.ofNat 8)
  | 'f' => some (Char.ofNat 12)
  | 'n' => some '\n'
  | 'r' => some '\r'
  | 't' => some '\t'
  | _ => none

/-- Parse a JSON string body (the opening quote already consumed). -/
def parseJStringBody : PyStr → PRes PyStr
  | [] => PRes.err (pys ("Unterminated string"))
  | '"' :: rest => PRes.ok [] rest
  | '\\' :: rest =>
    match rest with
    | 'u' :: a :: b :: c :: d :: r =>
      match parseHex a, parseHex b, parseHex c, parseHex d with
      | some ha, some hb, some hc, some hd =>
        (match parseJStringBody r with
         | PRes.ok cs rr => PRes.ok (Char.ofNat (((ha * 16 + hb) * 16 + hc) * 16 + hd) :: cs) rr
         | PRes.err m => PRes.err m)
      | _, _, _, _ => PRes.err (pys ("Invalid \\uXXXX escape"))
    | e :: r =>
      (match escChar e with
       | some ce =>
         (match parseJStringBody r with
          | PRes.ok cs rr => PRes.ok (ce :: cs) rr
          | PRes.err m => PRes.err m)
       | none =>
         if e = 'u' then PRes.err (pys ("Invalid \\uXXXX escape"))
         else PRes.err (pys ("Invalid \\escape")))
    | [] => PRes.err (pys ("Unterminated string"))
  | c :: rest =>
    if c.toNat < 32 then PRes.err (pys ("Invalid control character"))
    else
      match parseJStringBody rest with
      | PRes.ok cs rr => PRes.ok (c :: cs) rr
      | PRes.err m => PRes.err m

/-- Parse a JSON number token (CPython's `NUMBER_RE`): `-?(0|[1-9]\d*)`
followed by an optional `.digits` fraction and an optional exponent.  The
value is an `int` when neither fraction nor exponent is present, a `float`
(here: exact rational) otherwise. -/
def parseNumber (s : PyStr) : PRes JValue :=
  let ns : Bool × PyStr := match s with | '-' :: r => (true, r) | _ => (false, s)
  match ns.2 with
  | [] => PRes.err (pys ("Expecting value"))
  | c :: _ =>
    if ¬ c.isDigit then PRes.err (pys ("Expecting value"))
    else
      let ip := if c = '0' then ['0'] else ns.2.takeWhile Char.isDigit
      let r1 := ns.2.drop ip.length
      let fr : PyStr × PyStr :=
        match r1 with
        | '.' :: r =>
          let f := r.takeWhile Char.isDigit
          if f.isEmpty then ([], r1) else (f, r.drop f.length)
        | _ => ([], r1)
      let er : Option (Bool × Nat) × PyStr :=
        match fr.2 with
        | e :: r =>
          if e = 'e' ∨ e = 'E' then
            let sr : Bool × PyStr :=
              match r with
              | '-' :: rr => (true, rr)
              | '+' :: rr => (false, rr)
              | _ => (false, r)
            let ds := sr.2.takeWhile Char.isDigit
            if ds.isEmpty then (none, fr.2)
            else (some (sr.1, digitsToNat ds), sr.2.drop ds.length)
          else (none, fr.2)
        | [] => (none, fr.2)
      let iv : Nat := digitsToNat ip
      if fr.1.isEmpty ∧ er.1 = none then
        PRes.ok (JValue.jint (if ns.1 then -(iv : Int) else (iv : Int))) r1
      else
        let base : Rat := (iv : Rat) + (digitsToNat fr.1 : Rat) / ((10 : Rat) ^ fr.1.length)
        let q : Rat :=
          match er.1 with
          | some es => if es.1 then base / ((10 : Rat) ^ es.2) else base * ((10 : Rat) ^ es.2)
          | none => base
        PRes.ok (JValue.jnum (if ns.1 then -q else q)) er.2

/-- Insert a key/value pair with Python `dict` semantics: a repeated key keeps
its first position but takes the last value. -/
def insertKV (kvs : List (PyStr × JValue)) (k : PyStr) (v : JValue) : List (PyStr × JValue) :=
  if kvs.any (fun p => p.1 = k) then
    kvs.map (fun p => if p.1 = k then (k, v) else p)
  else kvs ++ [(k, v)]

mutual

/-- Parse one JSON value.  The fuel only bounds the recursion depth;
`pyJsonLoads` supplies enough for any input. -/
def parseValue : Nat → PyStr → PRes JValue
  | 0, _ => PRes.err (pys ("Expecting value"))
  | fuel+1, s =>
    match s with
    | 'n' :: 'u' :: 'l' :: 'l' :: r => PRes.ok JValue.jnull r
    | 't' :: 'r' :: 'u' :: 'e' :: r => PRes.ok (JValue.jbool true) r
    | 'f' :: 'a' :: 'l' :: 's' :: 'e' :: r => PRes.ok (JValue.jbool false) r
    | '"' :: r =>
      (match parseJStringBody r with
       | PRes.ok cs rest => PRes.ok (JValue.jstr cs) rest
       | PRes.err m => PRes.err m)
    | '[' :: r =>
      (match parseElems fuel r with
       | PRes.ok xs rest => PRes.ok (JValue.jarr xs) rest
       | PRes.err m => PRes.err m)
    | '\x7b' :: r =>
      (match parseMembers fuel r with
       | PRes.ok ps rest =>
         PRes.ok (JValue.jobj (ps.foldl (fun acc kv => insertKV acc kv.1 kv.2) [])) rest
       | PRes.err m => PRes.err m)
    | c :: r =>
      if c = '-' ∨ c.isDigit then parseNumber (c :: r)
      else PRes.err (pys ("Expecting value"))
    | [] => PRes.err (pys ("Expecting value"))
termination_by structural fuel => fuel

/-- Parse the contents of a JSON array, after the opening bracket. -/
def parseElems : Nat → PyStr → PRes (List JValue)
  | 0, _ => PRes.err (pys ("Expecting value"))
  | fuel+1, s =>
    match skipJWs s with
    | ']' :: r => PRes.ok [] r
    | s1 =>
      match parseValue fuel s1 with
      | PRes.ok v r =>
        (match parseElemsRest fuel r with
         | PRes.ok vs rr => PRes.ok (v :: vs) rr
         | PRes.err m => PRes.err m)
      | PRes.err m => PRes.err m
termination_by structural fuel => fuel

/-- Parse the rest of a JSON array: a comma and another element, or the
closing bracket. -/
def parseElemsRest : Nat → PyStr → PRes (List JValue)
  | 0, _ => PRes.err (pys ("Expecting value"))
  | fuel+1, s =>
    match skipJWs s with
    | ']' :: r => PRes.ok [] r
    | ',' :: r =>
      (match parseValue fuel (skipJWs r) with
       | PRes.ok v rr =>
         (match parseElemsRest fuel rr with
          | PRes.ok vs r3 => PRes.ok (v :: vs) r3
          | PRes.err m => PRes.err m)
       | PRes.err m => PRes.err m)
    | _ => PRes.err (pys ("Expecting delimiter"))
termination_by structural fuel => fuel

/-- Parse the contents of a JSON object, after the opening brace. -/
def parseMembers : Nat → PyStr → PRes (List (PyStr × JValue))
  | 0, _ => PRes.err (pys ("Expecting value"))
  | fuel+1, s =>
    match skipJWs s with
    | '\x7d' :: r => PRes.ok [] r
    | '"' :: r => parsePair fuel r
    | _ => PRes.err (pys ("Expecting property name enclosed in double quotes"))
termination_by structural fuel => fuel

/-- Parse one `key: value` pair (opening quote of the key already consumed)
followed by either a comma and further pairs or the closing brace. -/
def parsePair : Nat → PyStr → PRes (List (PyStr × JValue))
  | 0, _ => PRes.err (pys ("Expecting value"))
  | fuel+1, s =>
    match parseJStringBody s with
    | PRes.ok k r =>
      (match skipJWs r with
       | ':' :: r2 =>
         (match parseValue fuel (skipJWs r2) with
          | PRes.ok v r3 =>
            (match skipJWs r3 with
             | ',' :: r4 =>
               (match skipJWs r4 with
                | '"' :: r5 =>
                  (match parsePair fuel r5 with
                   | PRes.ok ps r6 => PRes.ok ((k, v) :: ps) r6
                   | PRes.err m => PRes.err m)
                | _ => PRes.err (pys ("Expecting property name enclosed in double quotes")))
             | '\x7d' :: r4 => PRes.ok [(k, v)] r4
             | _ => PRes.err (pys ("Expecting delimiter")))
          | PRes.err m => PRes.err m)
       | _ => PRes.err (pys ("Expecting colon delimiter")))
    | PRes.err m => PRes.err m
termination_by structural fuel => fuel

end

/-- Model of Python `json.loads` on the decoded text: parse one value, then
require only whitespace to remain.  Error messages carry the decoder's
category (positions are omitted). -/
def pyJsonLoads (s : PyStr) : JOut :=
  match parseValue (2 * s.length + 2) (skipJWs s) with
  | PRes.err m => JOut.err m
  | PRes.ok v rest =>
    if (skipJWs rest).isEmpty then JOut.ok v else JOut.err (pys ("Extra data"))

example : pyJsonLoads (pys ("\x7b\"a\": 1, \"b\": [true, null, \"x\"]\x7d")) =
    JOut.ok (JValue.jobj [(pys ("a"), JValue.jint 1),
      (pys ("b"), JValue.jarr [JValue.jbool true, JValue.jnull, JValue.jstr (pys ("x"))])]) := by
  with_unfolding_all rfl

example : pyJsonLoads (pys ("not json")) = JOut.err (pys ("Expecting value")) := by with_unfolding_all rfl

example : pyJsonLoads [] = JOut.err (pys ("Expecting value")) := by with_unfolding_all rfl

example : pyJsonLoads (pys ("[1") ) = JOut.err (pys ("Expecting delimiter")) := by with_unfolding_all rfl

example : pyJsonLoads (pys ("0.87")) = JOut.ok (JValue.jnum (87/100)) := by with_unfolding_all rfl

example : pyJsonLoads (pys ("\x7b\"a\": 1, \"a\": 2\x7d")) =
    JOut.ok (JValue.jobj [(pys ("a"), JValue.jint 2)]) := by with_unfolding_all rfl

example : pyJsonLoads (pys ("\"a\\nb\"")) = JOut.ok (JValue.jstr (pys ("a\nb"))) := by with_unfolding_all rfl

/-- `"\n".join(lines)` (Python `str.join`). -/
def joinNl : List PyStr → PyStr
  | [] => []
  | [l] => l
  | l :: ls => l ++ pys ("\n") ++ joinNl ls

/-- One staking sub-pool of a `TreasurySnapshot` (`staking.community` /
`staking.operator`).  Every field is optional; a missing enclosing object
behaves like an object with all fields missing, exactly as the chain of
`.get(..., {})` defaults does in the source. -/
structure SubPool where
  staked : Option PyStr
  cap : Option PyStr
  fillPct : Option Rat
  risk : Option PyStr

/-- The `staking` object of a `TreasurySnapshot`. -/
structure Staking where
  community : SubPool
  operator : SubPool

/-- The `rewards` object of a `TreasurySnapshot`. -/
structure Rewards where
  vaultBalance : Option PyStr
  emissionPerDay : Option PyStr
  runwayDays : Option Rat
  risk : Option PyStr

/-- The `morpho` object of a `TreasurySnapshot`. -/
structure Morpho where
  utilization : Option Rat
  vaultTvlUsd : Option Rat
  risk : Option PyStr

/-- The `queue` object of a `TreasurySnapshot`. -/
structure QueueInfo where
  queueLink : Option Rat
  risk : Option PyStr

/-- The treasury snapshot as consumed by `_format_prompt`: the JSON body of a
`/api/cre/analyze` request, typed per the fields the formatter reads. -/
structure TreasurySnapshot where
  timestamp : Option PyStr
  overallRisk : Option PyStr
  alerts : List PyStr
  staking : Staking
  rewards : Rewards
  morpho : Morpho
  queue : QueueInfo

/-- The empty JSON object `{}` seen through the formatter's `.get` defaults:
every field absent.  This is also what a malformed request body collapses to
(`request.get_json(force=True, silent=True) or {}`). -/
def emptyTreasury : TreasurySnapshot :=
  ⟨none, none, [], ⟨⟨none, none, none, none⟩, ⟨none, none, none, none⟩⟩,
   ⟨none, none, none, none⟩, ⟨none, none, none⟩, ⟨none, none⟩⟩

/-- `util_str` (source line 112). -/
def util_str (m : Morpho) : PyStr :=
  match m.utilization with
  | some u => pyFixed 1 u ++ pys ("%")
  | none => pys ("unavailable")

/-- `tvl_str` (source line 114). -/
def tvl_str (m : Morpho) : PyStr :=
  match m.vaultTvlUsd with
  | some t => pys ("$") ++ pyCommaFixed 0 t
  | none => pys ("unavailable")

/-- `q_str` (source line 116). -/
def q_str (q : QueueInfo) : PyStr :=
  match q.queueLink with
  | some n => pyCommaFixed 0 n ++ pys (" tokens")
  | none => pys ("unavailable")

/-- The fixed `lines` list of `_format_prompt` (source lines 118-138). -/
def treasury_lines (d : TreasurySnapshot) : List PyStr :=
  [pys ("Timestamp: ") ++ d.timestamp.getD (pys ("unknown")),
   pys ("Overall Risk: ") ++ pyUpper (d.overallRisk.getD (pys ("unknown"))),
   [],
   pys ("## Staking Pools"),
   pys ("Pool A: ") ++ d.staking.community.staked.getD (pys ("?")) ++ pys (" / ") ++
     d.staking.community.cap.getD (pys ("?")) ++ pys (" (") ++
     pyFixed 1 (d.staking.community.fillPct.getD 0) ++ pys ("% full) — ") ++
     d.staking.community.risk.getD (pys ("?")),
   pys ("Pool B: ") ++ d.staking.operator.staked.getD (pys ("?")) ++ pys (" / ") ++
     d.staking.operator.cap.getD (pys ("?")) ++ pys (" (") ++
     pyFixed 1 (d.staking.operator.fillPct.getD 0) ++ pys ("% full) — ") ++
     d.staking.operator.risk.getD (pys ("?")),
   [],
   pys ("## Reward Vault"),
   pys ("Balance: ") ++ d.rewards.vaultBalance.getD (pys ("?")) ++ pys (" tokens"),
   pys ("Emission: ") ++ d.rewards.emissionPerDay.getD (pys ("?")) ++ pys (" tokens/day"),
   pys ("Runway: ") ++ pyFixed 0 (d.rewards.runwayDays.getD 0) ++ pys (" days — ") ++
     d.rewards.risk.getD (pys ("?")),
   [],
   pys ("## Lending Market"),
   pys ("Utilization: ") ++ util_str d.morpho ++ pys (" — ") ++ d.morpho.risk.getD (pys ("?")),
   pys ("Vault TVL: ") ++ tvl_str d.morpho,
   [],
   pys ("## Priority Queue"),
   pys ("Queue Depth: ") ++ q_str d.queue ++ pys (" — ") ++ d.queue.risk.getD (pys ("?")),
   []]

/-- The alerts tail of `_format_prompt` (source lines 140-145): a header plus
one `- `-prefixed line per alert, or the literal fallback line. -/
def alert_lines (alerts : List PyStr) : List PyStr :=
  if alerts.isEmpty then [pys ("No active alerts.")]
  else pys ("## Active Alerts") :: alerts.map (fun a => pys ("- ") ++ a)

/-- `_format_prompt` (source lines 100-147). -/
def format_prompt (d : TreasurySnapshot) : PyStr :=
  joinNl (treasury_lines d ++ alert_lines d.alerts)

example : format_prompt emptyTreasury =
    pys ("Timestamp: unknown\nOverall Risk: UNKNOWN\n\n## Staking Pools\nPool A: ? / ? (0.0% full) — ?\nPool B: ? / ? (0.0% full) — ?\n\n## Reward Vault\nBalance: ? tokens\nEmission: ? tokens/day\nRunway: 0 days — ?\n\n## Lending Market\nUtilization: unavailable — ?\nVault TVL: unavailable\n\n## Priority Queue\nQueue Depth: unavailable — ?\n\nNo active alerts.") := by
  set_option maxRecDepth 10000 in with_unfolding_all rfl

/-- Model of Python `str(n)` for an integer. -/
def intStr (n : Int) : PyStr := (if n < 0 then pys ("-") else []) ++ natStr n.natAbs

/-- One premium quote of an `ArbSnapshot`. -/
structure PremiumQuote where
  amountInFormatted : Option PyStr
  amountOutFormatted : Option PyStr
  premiumBps : Option Int

/-- The `poolState` object of an `ArbSnapshot`. -/
structure PoolState where
  linkBalanceFormatted : Option PyStr
  stLINKBalanceFormatted : Option PyStr
  imbalanceRatio : Option Rat

/-- The `vaultState` object of an `ArbSnapshot`.  The snapshot carries `some`
only when the Python value is a truthy (non-empty) dict, matching the
`if vault:` test in the source. -/
structure VaultState where
  totalStLINKHeld : Option PyStr
  totalLINKQueued : Option PyStr
  cycleCount : Option PyStr
  totalCapitalAssets : Option PyStr
  minProfitBps : Option PyStr

/-- The arb snapshot as consumed by `_format_arb_prompt`: the JSON body of a
`/api/cre/analyze-arb` request, typed per the fields the formatter reads. -/
structure ArbSnapshot where
  signal : Option PyStr
  poolState : PoolState
  premiumQuotes : List PremiumQuote
  priorityPoolStatus : Option Int
  priorityPoolQueued : Option PyStr
  vaultState : Option VaultState

/-- The empty JSON object `{}` seen through `_format_arb_prompt`'s `.get`
defaults. -/
def emptyArb : ArbSnapshot := ⟨none, ⟨none, none, none⟩, [], none, none, none⟩

/-- `pp_status_str` (source line 241): the `{0,1,2}` lookup with the
`UNKNOWN(...)` fallback. -/
def ppStatusStr (n : Int) : PyStr :=
  if n = 0 then pys ("OPEN")
  else if n = 1 then pys ("DRAINING")
  else if n = 2 then pys ("CLOSED")
  else pys ("UNKNOWN(") ++ intStr n ++ pys (")")

/-- One premium-quote line (source line 255). -/
def quote_line (q : PremiumQuote) : PyStr :=
  pys ("  ") ++ q.amountInFormatted.getD (pys ("?")) ++ pys (" stLINK → ") ++
    q.amountOutFormatted.getD (pys ("?")) ++ pys (" LINK (") ++
    intStr (q.premiumBps.getD 0) ++ pys (" bps)")

/-- The optional vault tail of `_format_arb_prompt` (source lines 264-273). -/
def vault_lines : Option VaultState → List PyStr
  | none => []
  | some v =>
    [[],
     pys ("## Vault State"),
     pys ("stLINK held: ") ++ formatUnits_py (v.totalStLINKHeld.getD (pys ("0"))) 18,
     pys ("LINK queued: ") ++ formatUnits_py (v.totalLINKQueued.getD (pys ("0"))) 18,
     pys ("Cycle count: ") ++ v.cycleCount.getD (pys ("0")),
     pys ("Capital assets: ") ++ formatUnits_py (v.totalCapitalAssets.getD (pys ("0"))) 18 ++
       pys (" LINK"),
     pys ("Min profit threshold: ") ++ v.minProfitBps.getD (pys ("?")) ++ pys (" bps")]

/-- `_format_arb_prompt` (source lines 233-275). -/
def format_arb_prompt (d : ArbSnapshot) : PyStr :=
  joinNl
    ([pys ("Deterministic signal: ") ++ pyUpper (d.signal.getD (pys ("unknown"))),
      [],
      pys ("## Curve Pool State"),
      pys ("LINK balance: ") ++ d.poolState.linkBalanceFormatted.getD (pys ("?")),
      pys ("stLINK balance: ") ++ d.poolState.stLINKBalanceFormatted.getD (pys ("?")),
      pys ("Imbalance ratio (LINK/stLINK): ") ++ pyFixed 4 (d.poolState.imbalanceRatio.getD 0),
      [],
      pys ("## Premium Quotes (stLINK → LINK)")] ++
     d.premiumQuotes.map quote_line ++
     [[],
      pys ("## Priority Pool"),
      pys ("Status: ") ++ ppStatusStr (d.priorityPoolStatus.getD (-1)),
      pys ("Queued: ") ++ formatUnits_py (d.priorityPoolQueued.getD (pys ("0"))) 18 ++
        pys (" LINK")] ++
     vault_lines d.vaultState)

example : ppStatusStr 1 = pys ("DRAINING") := by decide

example : ppStatusStr (-1) = pys ("UNKNOWN(-1)") := by decide

example : format_arb_prompt emptyArb =
    pys ("Deterministic signal: UNKNOWN\n\n## Curve Pool State\nLINK balance: ?\nstLINK balance: ?\nImbalance ratio (LINK/stLINK): 0.0000\n\n## Premium Quotes (stLINK → LINK)\n\n## Priority Pool\nStatus: UNKNOWN(-1)\nQueued: 0.00 LINK") := by
  set_option maxRecDepth 10000 in with_unfolding_all rfl

/-- What one provider call produced for this request: the raw text, or an
exception message (credential/transport/provider failures, which the source
propagates into the generic `except Exception` handler). -/
inductive ProviderOutcome where
  | ok (text : PyStr)
  | err (msg : PyStr)

/-- Process environment at module load: raw values of the three environment
variables (`none` when unset).  `os.environ.get(name, "")` collapses `none`
to the empty string, which the guards below reproduce via `getD []`. -/
structure Env where
  creSecret : Option PyStr
  anthropicKey : Option PyStr
  openaiKey : Option PyStr

/-- A `/api/cre/analyze` request: the optional `X-CRE-Secret` header and the
JSON body (`none` for a missing or malformed body, which
`request.get_json(force=True, silent=True) or {}` turns into `{}`). -/
structure AnalyzeRequest where
  secretHeader : Option PyStr
  body : Option TreasurySnapshot

/-- A `/api/cre/analyze-arb` request. -/
structure ArbRequest where
  secretHeader : Option PyStr
  body : Option ArbSnapshot

/-- The observable outcome of one request: HTTP status, JSON body, and two
event flags — whether the body-parsing step ran and whether the provider was
invoked — recording how far the handler progressed. -/
structure HttpOutcome where
  status : Nat
  body : JValue
  parsedBody : Bool
  calledProvider : Bool

/-- `jsonify({"error": msg})`. -/
def errorBody (msg : PyStr) : JValue := JValue.jobj [(pys ("error"), JValue.jstr msg)]

/-- The `AttributeError` message raised by `result.get(...)` when
`json.loads` produced a non-dict: `'<type>' object has no attribute 'get'`. -/
def attrGetMsg (v : JValue) : PyStr :=
  let ty : PyStr :=
    match v with
    | JValue.jnull => pys ("NoneType")
    | JValue.jbool _ => pys ("bool")
    | JValue.jint _ => pys ("int")
    | JValue.jnum _ => pys ("float")
    | JValue.jstr _ => pys ("str")
    | JValue.jarr _ => pys ("list")
    | JValue.jobj _ => pys ("dict")
  pys ("'") ++ ty ++ pys ("' object has no attribute 'get'")

/-- The `/api/cre/analyze` handler (source lines 150-184), with the provider
call abstracted as an oracle from the rendered prompt to what the Anthropic
client produced.  Branches, in source order: shared-secret check (401),
body parsing, credential check (503), provider invocation (`except` → 500),
fence-stripping and `json.loads` (`JSONDecodeError` → 500 with detail),
the `result.get` logging line (`AttributeError` on non-dicts → 500), and the
200 relay of the parsed object. -/
def analyze (env : Env) (req : AnalyzeRequest) (oracle : PyStr → ProviderOutcome) : HttpOutcome :=
  if env.creSecret.getD [] ≠ [] ∧ req.secretHeader.getD [] ≠ env.creSecret.getD [] then
    ⟨401, errorBody (pys ("unauthorized")), false, false⟩
  else if env.anthropicKey.getD [] = [] then
    ⟨503, errorBody (pys ("ANTHROPIC_API_KEY not set")), true, false⟩
  else
    match oracle (format_prompt (req.body.getD emptyTreasury)) with
    | ProviderOutcome.err m => ⟨500, errorBody m, true, true⟩
    | ProviderOutcome.ok raw =>
      match pyJsonLoads (extractJson raw) with
      | JOut.err e =>
        ⟨500, JValue.jobj [(pys ("error"), JValue.jstr (pys ("parse error"))),
                           (pys ("detail"), JValue.jstr e)], true, true⟩
      | JOut.ok v =>
        match v with
        | JValue.jobj kvs => ⟨200, JValue.jobj kvs, true, true⟩
        | other => ⟨500, errorBody (attrGetMsg other), true, true⟩

/-- The `/api/cre/analyze-arb` handler (source lines 288-320); identical to
`analyze` except for the credential (`OPENAI_API_KEY`) and the prompt
formatter. -/
def analyze_arb (env : Env) (req : ArbRequest) (oracle : PyStr → ProviderOutcome) : HttpOutcome :=
  if env.creSecret.getD [] ≠ [] ∧ req.secretHeader.getD [] ≠ env.creSecret.getD [] then
    ⟨401, errorBody (pys ("unauthorized")), false, false⟩
  else if env.openaiKey.getD [] = [] then
    ⟨503, errorBody (pys ("OPENAI_API_KEY not set")), true, false⟩
  else
    match oracle (format_arb_prompt (req.body.getD emptyArb)) with
    | ProviderOutcome.err m => ⟨500, errorBody m, true, true⟩
    | ProviderOutcome.ok raw =>
      match pyJsonLoads (extractJson raw) with
      | JOut.err e =>
        ⟨500, JValue.jobj [(pys ("error"), JValue.jstr (pys ("parse error"))),
                           (pys ("detail"), JValue.jstr e)], true, true⟩
      | JOut.ok v =>
        match v with
        | JValue.jobj kvs => ⟨200, JValue.jobj kvs, true, true⟩
        | other => ⟨500, errorBody (attrGetMsg other), true, true⟩

example :
    analyze ⟨some (pys ("s")), some (pys ("k")), none⟩ ⟨none, none⟩
      (fun _ => ProviderOutcome.ok (pys ("\x7b\x7d"))) =
    ⟨401, errorBody (pys ("unauthorized")), false, false⟩ := by
  set_option maxRecDepth 10000 in with_unfolding_all rfl

example :
    analyze ⟨none, some (pys ("k")), none⟩ ⟨none, none⟩
      (fun _ => ProviderOutcome.ok (pys ("\x7b\"assessment\": \"x\"\x7d"))) =
    ⟨200, JValue.jobj [(pys ("assessment"), JValue.jstr (pys ("x")))], true, true⟩ := by
  set_option maxRecDepth 10000 in with_unfolding_all rfl

example :
    analyze ⟨none, none, none⟩ ⟨none, none⟩ (fun _ => ProviderOutcome.ok (pys ("\x7b\x7d"))) =
    ⟨503, errorBody (pys ("ANTHROPIC_API_KEY not set")), true, false⟩ := by
  set_option maxRecDepth 10000 in with_unfolding_all rfl

/-- Is the parsed JSON value a dict? -/
def JValue.isObj : JValue → Bool
  | JValue.jobj _ => true
  | _ => false

/-- Claim C5: whenever a shared secret is configured, a request to either
endpoint whose `X-CRE-Secret` header is absent or differs from the secret
receives `401 {"error": "unauthorized"}`, with neither the body-parsing step
nor the provider invocation having run. -/
theorem c5_unauthorized (env : Env) (req : AnalyzeRequest) (areq : ArbRequest)
    (o1 o2 : PyStr → ProviderOutcome)
    (hsec : env.creSecret.getD [] ≠ [])
    (h1 : req.secretHeader = none ∨ req.secretHeader.getD [] ≠ env.creSecret.getD [])
    (h2 : areq.secretHeader = none ∨ areq.secretHeader.getD [] ≠ env.creSecret.getD []) :
    analyze env req o1 = ⟨401, errorBody (pys ("unauthorized")), false, false⟩ ∧
    analyze_arb env areq o2 = ⟨401, errorBody (pys ("unauthorized")), false, false⟩ := by
  have g1 : req.secretHeader.getD [] ≠ env.creSecret.getD [] := by
    rcases h1 with h | h
    · rw [h]; exact Ne.symm hsec
    · exact h
  have g2 : areq.secretHeader.getD [] ≠ env.creSecret.getD [] := by
    rcases h2 with h | h
    · rw [h]; exact Ne.symm hsec
    · exact h
  constructor
  · unfold analyze
    rw [if_pos ⟨hsec, g1⟩]
  · unfold analyze_arb
    rw [if_pos ⟨hsec, g2⟩]

/-- Witness for C5 at a concrete configured secret and a request without the
header. -/
theorem c5_unauthorized_witness :
    analyze ⟨some (pys ("s")), some (pys ("k")), none⟩ ⟨none, none⟩
        (fun _ => ProviderOutcome.ok (pys ("\x7b\x7d"))) =
      ⟨401, errorBody (pys ("unauthorized")), false, false⟩ ∧
    analyze_arb ⟨some (pys ("s")), some (pys ("k")), none⟩ ⟨some (pys ("wrong")), none⟩
        (fun _ => ProviderOutcome.ok (pys ("\x7b\x7d"))) =
      ⟨401, errorBody (pys ("unauthorized")), false, false⟩ :=
  c5_unauthorized ⟨some (pys ("s")), some (pys ("k")), none⟩ ⟨none, none⟩
    ⟨some (pys ("wrong")), none⟩ _ _ (by decide) (Or.inl rfl) (Or.inr (by decide))

/-- Claim C6: on an authorized request, a missing provider credential makes
the endpoint answer `503` with a body naming exactly the missing credential,
and the provider oracle is never consulted (`calledProvider = false`). -/
theorem c6_missing_credential (env : Env) (req : AnalyzeRequest) (areq : ArbRequest)
    (o1 o2 : PyStr → ProviderOutcome)
    (hauth1 : env.creSecret.getD [] = [] ∨ req.secretHeader.getD [] = env.creSecret.getD [])
    (hauth2 : env.creSecret.getD [] = [] ∨ areq.secretHeader.getD [] = env.creSecret.getD [])
    (hk1 : env.anthropicKey.getD [] = [])
    (hk2 : env.openaiKey.getD [] = []) :
    analyze env req o1 = ⟨503, errorBody (pys ("ANTHROPIC_API_KEY not set")), true, false⟩ ∧
    analyze_arb env areq o2 = ⟨503, errorBody (pys ("OPENAI_API_KEY not set")), true, false⟩ := by
  constructor
  · unfold analyze
    rw [if_neg (by rcases hauth1 with h | h
                   · exact fun hc => hc.1 h
                   · exact fun hc => hc.2 h),
        if_pos hk1]
  · unfold analyze_arb
    rw [if_neg (by rcases hauth2 with h | h
                   · exact fun hc => hc.1 h
                   · exact fun hc => hc.2 h),
        if_pos hk2]

/-- Witness for C6 with no secret configured and both credentials unset. -/
theorem c6_missing_credential_witness :
    analyze ⟨none, none, none⟩ ⟨none, none⟩ (fun _ => ProviderOutcome.ok (pys ("\x7b\x7d"))) =
      ⟨503, errorBody (pys ("ANTHROPIC_API_KEY not set")), true, false⟩ ∧
    analyze_arb ⟨none, none, none⟩ ⟨none, none⟩ (fun _ => ProviderOutcome.ok (pys ("\x7b\x7d"))) =
      ⟨503, errorBody (pys ("OPENAI_API_KEY not set")), true, false⟩ :=
  c6_missing_credential ⟨none, none, none⟩ ⟨none, none⟩ ⟨none, none⟩ _ _
    (Or.inl rfl) (Or.inl rfl) rfl rfl

/-- Claim C7: when the provider's text, after fence stripping, is not valid
JSON, the endpoint answers `500` with
`{"error": "parse error", "detail": <decoder message>}`, on both endpoints. -/
theorem c7_parse_error (env : Env) (req : AnalyzeRequest) (areq : ArbRequest)
    (o1 o2 : PyStr → ProviderOutcome) (raw1 raw2 e1 e2 : PyStr)
    (hauth1 : env.creSecret.getD [] = [] ∨ req.secretHeader.getD [] = env.creSecret.getD [])
    (hauth2 : env.creSecret.getD [] = [] ∨ areq.secretHeader.getD [] = env.creSecret.getD [])
    (hk1 : env.anthropicKey.getD [] ≠ [])
    (hk2 : env.openaiKey.getD [] ≠ [])
    (ho1 : o1 (format_prompt (req.body.getD emptyTreasury)) = ProviderOutcome.ok raw1)
    (ho2 : o2 (format_arb_prompt (areq.body.getD emptyArb)) = ProviderOutcome.ok raw2)
    (hp1 : pyJsonLoads (extractJson raw1) = JOut.err e1)
    (hp2 : pyJsonLoads (extractJson raw2) = JOut.err e2) :
    analyze env req o1 =
      ⟨500, JValue.jobj [(pys ("error"), JValue.jstr (pys ("parse error"))),
                         (pys ("detail"), JValue.jstr e1)], true, true⟩ ∧
    analyze_arb env areq o2 =
      ⟨500, JValue.jobj [(pys ("error"), JValue.jstr (pys ("parse error"))),
                         (pys ("detail"), JValue.jstr e2)], true, true⟩ := by
  constructor
  · unfold analyze
    rw [if_neg (by rcases hauth1 with h | h
                   · exact fun hc => hc.1 h
                   · exact fun hc => hc.2 h),
        if_neg hk1, ho1]
    simp only [hp1]
  · unfold analyze_arb
    rw [if_neg (by rcases hauth2 with h | h
                   · exact fun hc => hc.1 h
                   · exact fun hc => hc.2 h),
        if_neg hk2, ho2]
    simp only [hp2]

/-- Witness for C7: the provider returns `not json` on both endpoints. -/
theorem c7_parse_error_witness :
    analyze ⟨none, some (pys ("k")), some (pys ("k"))⟩ ⟨none, none⟩
        (fun _ => ProviderOutcome.ok (pys ("not json"))) =
      ⟨500, JValue.jobj [(pys ("error"), JValue.jstr (pys ("parse error"))),
                         (pys ("detail"), JValue.jstr (pys ("Expecting value")))], true, true⟩ ∧
    analyze_arb ⟨none, some (pys ("k")), some (pys ("k"))⟩ ⟨none, none⟩
        (fun _ => ProviderOutcome.ok (pys ("not json"))) =
      ⟨500, JValue.jobj [(pys ("error"), JValue.jstr (pys ("parse error"))),
                         (pys ("detail"), JValue.jstr (pys ("Expecting value")))], true, true⟩ :=
  c7_parse_error ⟨none, some (pys ("k")), some (pys ("k"))⟩ ⟨none, none⟩ ⟨none, none⟩ _ _
    (pys ("not json")) (pys ("not json")) (pys ("Expecting value")) (pys ("Expecting value"))
    (Or.inl rfl) (Or.inl rfl) (by decide) (by decide) rfl rfl
    (by with_unfolding_all rfl) (by with_unfolding_all rfl)

/-- Claim C8: when the provider's text parses as JSON whose top-level value is
not an object, the `result.get` attribute access raises, the generic handler
fires, and the client receives `500 {"error": <exception message>}` — the
payload is not relayed with 200. -/
theorem c8_non_object (env : Env) (req : AnalyzeRequest) (areq : ArbRequest)
    (o1 o2 : PyStr → ProviderOutcome) (raw1 raw2 : PyStr) (v1 v2 : JValue)
    (hauth1 : env.creSecret.getD [] = [] ∨ req.secretHeader.getD [] = env.creSecret.getD [])
    (hauth2 : env.creSecret.getD [] = [] ∨ areq.secretHeader.getD [] = env.creSecret.getD [])
    (hk1 : env.anthropicKey.getD [] ≠ [])
    (hk2 : env.openaiKey.getD [] ≠ [])
    (ho1 : o1 (format_prompt (req.body.getD emptyTreasury)) = ProviderOutcome.ok raw1)
    (ho2 : o2 (format_arb_prompt (areq.body.getD emptyArb)) = ProviderOutcome.ok raw2)
    (hp1 : pyJsonLoads (extractJson raw1) = JOut.ok v1)
    (hp2 : pyJsonLoads (extractJson raw2) = JOut.ok v2)
    (hv1 : JValue.isObj v1 = false)
    (hv2 : JValue.isObj v2 = false) :
    analyze env req o1 = ⟨500, errorBody (attrGetMsg v1), true, true⟩ ∧
    analyze_arb env areq o2 = ⟨500, errorBody (attrGetMsg v2), true, true⟩ := by
  constructor
  · unfold analyze
    rw [if_neg (by rcases hauth1 with h | h
                   · exact fun hc => hc.1 h
                   · exact fun hc => hc.2 h),
        if_neg hk1, ho1]
    simp only [hp1]
    cases v1 with
    | jobj kvs => exact absurd hv1 (by simp [JValue.isObj])
    | jnull => rfl
    | jbool b => rfl
    | jint n => rfl
    | jnum q => rfl
    | jstr s => rfl
    | jarr xs => rfl
  · unfold analyze_arb
    rw [if_neg (by rcases hauth2 with h | h
                   · exact fun hc => hc.1 h
                   · exact fun hc => hc.2 h),
        if_neg hk2, ho2]
    simp only [hp2]
    cases v2 with
    | jobj kvs => exact absurd hv2 (by simp [JValue.isObj])
    | jnull => rfl
    | jbool b => rfl
    | jint n => rfl
    | jnum q => rfl
    | jstr s => rfl
    | jarr xs => rfl

/-- Witness for C8: the provider returns the JSON array `[1]` on both
endpoints; the client sees the `AttributeError` text for `list`. -/
theorem c8_non_object_witness :
    analyze ⟨none, some (pys ("k")), some (pys ("k"))⟩ ⟨none, none⟩
        (fun _ => ProviderOutcome.ok (pys ("[1]"))) =
      ⟨500, errorBody (pys ("'list' object has no attribute 'get'")), true, true⟩ ∧
    analyze_arb ⟨none, some (pys ("k")), some (pys ("k"))⟩ ⟨none, none⟩
        (fun _ => ProviderOutcome.ok (pys ("[1]"))) =
      ⟨500, errorBody (pys ("'list' object has no attribute 'get'")), true, true⟩ :=
  c8_non_object ⟨none, some (pys ("k")), some (pys ("k"))⟩ ⟨none, none⟩ ⟨none, none⟩ _ _
    (pys ("[1]")) (pys ("[1]")) (JValue.jarr [JValue.jint 1]) (JValue.jarr [JValue.jint 1])
    (Or.inl rfl) (Or.inl rfl) (by decide) (by decide) rfl rfl
    (by with_unfolding_all rfl) (by with_unfolding_all rfl) rfl rfl

/-- Counterexample to claim C1: a provider response that parses as a JSON
object but has no `risk_label` key is relayed verbatim with status 200 — no
`ParseError` is raised and the payload does reach the caller as a success.
The relayed object's keys do not include `risk_label`. -/
theorem c1_relay_counterexample :
    analyze ⟨none, some (pys ("k")), none⟩ ⟨none, none⟩
        (fun _ => ProviderOutcome.ok (pys ("\x7b\"assessment\": \"x\"\x7d"))) =
      ⟨200, JValue.jobj [(pys ("assessment"), JValue.jstr (pys ("x")))], true, true⟩ ∧
    pys ("risk_label") ∉ List.map Prod.fst [(pys ("assessment"), JValue.jstr (pys ("x")))] := by
  constructor
  · set_option maxRecDepth 10000 in with_unfolding_all rfl
  · decide

/-- Claim C1 as amended: the endpoints perform no schema-level validation of
the provider's payload.  Any response whose fence-stripped text parses as a
JSON object is relayed to the caller with status 200 exactly as parsed,
whether or not any required field of the result schema is present; a
`ParseError` arises only from JSON syntax errors. -/
theorem c1_no_schema_validation (env : Env) (req : AnalyzeRequest) (areq : ArbRequest)
    (o1 o2 : PyStr → ProviderOutcome) (raw1 raw2 : PyStr)
    (kvs1 kvs2 : List (PyStr × JValue))
    (hauth1 : env.creSecret.getD [] = [] ∨ req.secretHeader.getD [] = env.creSecret.getD [])
    (hauth2 : env.creSecret.getD [] = [] ∨ areq.secretHeader.getD [] = env.creSecret.getD [])
    (hk1 : env.anthropicKey.getD [] ≠ [])
    (hk2 : env.openaiKey.getD [] ≠ [])
    (ho1 : o1 (format_prompt (req.body.getD emptyTreasury)) = ProviderOutcome.ok raw1)
    (ho2 : o2 (format_arb_prompt (areq.body.getD emptyArb)) = ProviderOutcome.ok raw2)
    (hp1 : pyJsonLoads (extractJson raw1) = JOut.ok (JValue.jobj kvs1))
    (hp2 : pyJsonLoads (extractJson raw2) = JOut.ok (JValue.jobj kvs2)) :
    analyze env req o1 = ⟨200, JValue.jobj kvs1, true, true⟩ ∧
    analyze_arb env areq o2 = ⟨200, JValue.jobj kvs2, true, true⟩ := by
  constructor
  · unfold analyze
    rw [if_neg (by rcases hauth1 with h | h
                   · exact fun hc => hc.1 h
                   · exact fun hc => hc.2 h),
        if_neg hk1, ho1]
    simp only [hp1]
  · unfold analyze_arb
    rw [if_neg (by rcases hauth2 with h | h
                   · exact fun hc => hc.1 h
                   · exact fun hc => hc.2 h),
        if_neg hk2, ho2]
    simp only [hp2]

/-- Witness for the amended C1: objects missing `risk_label` (treasury) and
`recommendation` (arb) are both relayed with 200. -/
theorem c1_no_schema_validation_witness :
    analyze ⟨none, some (pys ("k")), some (pys ("k"))⟩ ⟨none, none⟩
        (fun _ => ProviderOutcome.ok (pys ("\x7b\"assessment\": \"x\"\x7d"))) =
      ⟨200, JValue.jobj [(pys ("assessment"), JValue.jstr (pys ("x")))], true, true⟩ ∧
    analyze_arb ⟨none, some (pys ("k")), some (pys ("k"))⟩ ⟨none, none⟩
        (fun _ => ProviderOutcome.ok (pys ("\x7b\"assessment\": \"x\"\x7d"))) =
      ⟨200, JValue.jobj [(pys ("assessment"), JValue.jstr (pys ("x")))], true, true⟩ :=
  c1_no_schema_validation ⟨none, some (pys ("k")), some (pys ("k"))⟩ ⟨none, none⟩ ⟨none, none⟩
    _ _ (pys ("\x7b\"assessment\": \"x\"\x7d")) (pys ("\x7b\"assessment\": \"x\"\x7d"))
    [(pys ("assessment"), JValue.jstr (pys ("x")))] [(pys ("assessment"), JValue.jstr (pys ("x")))]
    (Or.inl rfl) (Or.inl rfl) (by decide) (by decide) rfl rfl
    (by with_unfolding_all rfl) (by with_unfolding_all rfl)

/-- Claim C10: with the shared secret unset or empty, the authorization check
is skipped on both endpoints — no request is answered with 401, whatever the
`X-CRE-Secret` header holds — and an environment with an empty secret behaves
identically to one with no secret at all. -/
theorem c10_empty_secret (cre : Option PyStr) (ak ok : Option PyStr)
    (req : AnalyzeRequest) (areq : ArbRequest) (o1 o2 : PyStr → ProviderOutcome)
    (hsec : cre = none ∨ cre = some []) :
    (analyze ⟨cre, ak, ok⟩ req o1).status ≠ 401 ∧
    (analyze_arb ⟨cre, ak, ok⟩ areq o2).status ≠ 401 ∧
    analyze ⟨cre, ak, ok⟩ req o1 = analyze ⟨none, ak, ok⟩ req o1 ∧
    analyze_arb ⟨cre, ak, ok⟩ areq o2 = analyze_arb ⟨none, ak, ok⟩ areq o2 := by
  have hval : cre.getD [] = [] := by rcases hsec with h | h <;> simp [h]
  have hcond : ∀ h : Option PyStr, ¬ (cre.getD [] ≠ [] ∧ h.getD [] ≠ cre.getD []) :=
    fun h hc => hc.1 hval
  refine ⟨?_, ?_, ?_, ?_⟩
  · unfold analyze
    rw [if_neg (hcond req.secretHeader)]
    split
    · decide
    · split
      · intro hcon; cases hcon
      · split
        · intro hcon; cases hcon
        · split
          · intro hcon; cases hcon
          · intro hcon; cases hcon
  · unfold analyze_arb
    rw [if_neg (hcond areq.secretHeader)]
    split
    · decide
    · split
      · intro hcon; cases hcon
      · split
        · intro hcon; cases hcon
        · split
          · intro hcon; cases hcon
          · intro hcon; cases hcon
  · rcases hsec with rfl | rfl
    · rfl
    · rfl
  · rcases hsec with rfl | rfl
    · rfl
    · rfl

/-- Witness for C10 at an empty configured secret and a request that does
send a header. -/
theorem c10_empty_secret_witness :
    (analyze ⟨some [], none, none⟩ ⟨some (pys ("anything")), none⟩
        (fun _ => ProviderOutcome.ok (pys ("\x7b\x7d")))).status ≠ 401 ∧
    (analyze_arb ⟨some [], none, none⟩ ⟨some (pys ("anything")), none⟩
        (fun _ => ProviderOutcome.ok (pys ("\x7b\x7d")))).status ≠ 401 ∧
    analyze ⟨some [], none, none⟩ ⟨some (pys ("anything")), none⟩
        (fun _ => ProviderOutcome.ok (pys ("\x7b\x7d"))) =
      analyze ⟨none, none, none⟩ ⟨some (pys ("anything")), none⟩
        (fun _ => ProviderOutcome.ok (pys ("\x7b\x7d"))) ∧
    analyze_arb ⟨some [], none, none⟩ ⟨some (pys ("anything")), none⟩
        (fun _ => ProviderOutcome.ok (pys ("\x7b\x7d"))) =
      analyze_arb ⟨none, none, none⟩ ⟨some (pys ("anything")), none⟩
        (fun _ => ProviderOutcome.ok (pys ("\x7b\x7d"))) :=
  c10_empty_secret (some []) none none ⟨some (pys ("anything")), none⟩
    ⟨some (pys ("anything")), none⟩ _ _ (Or.inr rfl)

/-- `pySplitAux` always returns at least one chunk. -/
theorem pySplitAux_length_pos (sep : PyStr) :
    ∀ fuel s acc, 1 ≤ (pySplitAux sep fuel s acc).length := by
  intro fuel
  induction fuel with
  | zero => intro s acc; cases s <;> simp [pySplitAux]
  | succ f ih =>
    intro s acc
    cases s with
    | nil => simp [pySplitAux]
    | cons c rest =>
      simp only [pySplitAux]
      split
      · simp
      · exact ih rest (c :: acc)

/-- Claim C9: the fence-stripping step is total.  For every string starting
with the triple-backtick marker, splitting on ``` ``` `` yields at least two
parts, so the `[1]` index never fails; in the worst case (the bare string
``` ``` ``) the extracted remainder is empty and merely fails JSON parsing
later. -/
theorem c9_fence_split_total (s : PyStr) (h : (pys ("```")).isPrefixOf s = true) :
    2 ≤ (pySplit (pys ("```")) s).length ∧
    extractJson (pys ("```")) = [] ∧
    pyJsonLoads (extractJson (pys ("```"))) = JOut.err (pys ("Expecting value")) := by
  refine ⟨?_, by with_unfolding_all rfl, by with_unfolding_all rfl⟩
  obtain ⟨t, rfl⟩ := List.isPrefixOf_iff_prefix.mp h
  unfold pySplit
  rw [if_neg (by decide)]
  have hlen : (pys ("```") ++ t).length = t.length + 2 + 1 := by
    simp [pys]
  rw [hlen]
  have hcons : pys ("```") ++ t = '`' :: '`' :: '`' :: t := rfl
  rw [hcons]
  simp only [pySplitAux]
  rw [if_pos (by simp [List.isPrefixOf])]
  simpa using pySplitAux_length_pos (pys ("```")) _ _ []

/-- Witness for C9 at the worst-case input ``` ``` ``. -/
theorem c9_fence_split_total_witness :
    2 ≤ (pySplit (pys ("```")) (pys ("```"))).length ∧
    extractJson (pys ("```")) = [] ∧
    pyJsonLoads (extractJson (pys ("```"))) = JOut.err (pys ("Expecting value")) :=
  c9_fence_split_total (pys ("```")) (by decide)

/-- `digitsRevA` does not depend on the fuel once the fuel exceeds `n`. -/
theorem digitsRevA_fuel : ∀ n f g, n < f → n < g → digitsRevA f n = digitsRevA g n := by
  intro n
  induction n using Nat.strong_induction_on with
  | _ n ih =>
    intro f g hf hg
    cases f with
    | zero => omega
    | succ f' =>
      cases g with
      | zero => omega
      | succ g' =>
        simp only [digitsRevA]
        split
        · rfl
        · next h =>
          have hdiv : n / 10 < n := Nat.div_lt_self (by omega) (by omega)
          rw [ih (n / 10) hdiv f' g' (by omega) (by omega)]

/-- Unfolding `digitsRev` below 10. -/
theorem digitsRev_lt (n : Nat) (h : n < 10) : digitsRev n = [Nat.digitChar n] := by
  simp [digitsRev, digitsRevA, h]

/-- Unfolding `digitsRev` at 10 and above. -/
theorem digitsRev_ge (n : Nat) (h : 10 ≤ n) :
    digitsRev n = Nat.digitChar (n % 10) :: digitsRev (n / 10) := by
  have hdiv : n / 10 < n := Nat.div_lt_self (by omega) (by omega)
  unfold digitsRev
  have hstep : digitsRevA (n + 1) n =
      if n < 10 then [Nat.digitChar n]
      else Nat.digitChar (n % 10) :: digitsRevA n (n / 10) := rfl
  rw [hstep, if_neg (by omega : ¬ n < 10)]
  exact congrArg _ (digitsRevA_fuel (n / 10) n (n / 10 + 1) (by omega) (by omega))

/-- Decimal digits of `a * 10^m + b` decompose into the `m` fixed digits of
`b` followed by the digits of `a`, for positive `a` and `b < 10^m`. -/
theorem digitsRev_split : ∀ m a b, 0 < a → b < 10 ^ m →
    digitsRev (a * 10 ^ m + b) = fixedDigitsRev m b ++ digitsRev a := by
  intro m
  induction m with
  | zero =>
    intro a b _ hb
    interval_cases b
    simp [fixedDigitsRev]
  | succ m ih =>
    intro a b ha hb
    have hpow : 1 ≤ 10 ^ m := Nat.one_le_pow _ _ (by omega)
    have hform : a * 10 ^ (m + 1) + b = b + a * 10 ^ m * 10 := by
      rw [pow_succ]
      ring
    have h10 : 10 ≤ a * 10 ^ (m + 1) + b := by
      have : 10 ^ (m + 1) = 10 ^ m * 10 := pow_succ 10 m
      nlinarith
    rw [digitsRev_ge _ h10]
    have hmod : (a * 10 ^ (m + 1) + b) % 10 = b % 10 := by
      rw [hform, Nat.add_mul_mod_self_right]
    have hdiv : (a * 10 ^ (m + 1) + b) / 10 = a * 10 ^ m + b / 10 := by
      rw [hform, Nat.add_mul_div_right _ _ (by omega : (0:Nat) < 10)]
      ring
    rw [hmod, hdiv, ih a (b / 10) ha (by
      have : 10 ^ (m + 1) = 10 ^ m * 10 := pow_succ 10 m
      omega)]
    simp [fixedDigitsRev]

/-- A number below `10^k` has at most `k` decimal digits (for `k ≥ 1`). -/
theorem digitsRev_length_le : ∀ k n, 1 ≤ k → n < 10 ^ k → (digitsRev n).length ≤ k := by
  intro k
  induction k with
  | zero => omega
  | succ k ih =>
    intro n _ hn
    by_cases h10 : n < 10
    · rw [digitsRev_lt n h10]
      simp
    · have hk : 1 ≤ k := by
        rcases Nat.eq_zero_or_pos k with rfl | h
        · simp at hn; omega
        · exact h
      rw [digitsRev_ge n (by omega)]
      have : n / 10 < 10 ^ k := by
        have hpow : 10 ^ (k + 1) = 10 ^ k * 10 := pow_succ 10 k
        omega
      simpa using ih (n / 10) hk this

/-- Every number has at least one decimal digit. -/
theorem digitsRev_length_pos (n : Nat) : 1 ≤ (digitsRev n).length := by
  by_cases h : n < 10
  · rw [digitsRev_lt n h]; simp
  · rw [digitsRev_ge n (by omega)]; simp

/-- `fixedDigitsRev m b` has exactly `m` digits. -/
theorem fixedDigitsRev_length : ∀ m b, (fixedDigitsRev m b).length = m := by
  intro m
  induction m with
  | zero => intro b; rfl
  | succ m ih => intro b; simp [fixedDigitsRev, ih]

/-- Taking the first two characters of the 18-digit zero-padded decimal
rendering of `fr < 10^18` yields the 2-digit zero-padded rendering of
`fr / 10^16`. -/
theorem zfill_take_two (fr : Nat) (hfr : fr < 10 ^ 18) :
    (List.replicate (18 - (natStr fr).length) '0' ++ natStr fr).take 2 =
      List.replicate (2 - (natStr (fr / 10 ^ 16)).length) '0' ++ natStr (fr / 10 ^ 16) := by
  by_cases ha : fr / 10 ^ 16 = 0
  · have hb : fr < 10 ^ 16 := by
      rcases Nat.lt_or_ge fr (10 ^ 16) with h | h
      · exact h
      · exact absurd ha (by
          have : 1 ≤ fr / 10 ^ 16 := (Nat.one_le_div_iff (by positivity)).mpr h
          omega)
    have hlen : (natStr fr).length ≤ 16 := by
      simpa [natStr] using digitsRev_length_le 16 fr (by omega) hb
    have hlen1 : 1 ≤ (natStr fr).length := by
      simpa [natStr] using digitsRev_length_pos fr
    rw [ha]
    rw [List.take_append_of_le_length (by simp; omega), List.take_replicate]
    have h2 : min 2 (18 - (natStr fr).length) = 2 := by omega
    rw [h2]
    decide
  · set a := fr / 10 ^ 16 with hadef
    set b := fr % 10 ^ 16 with hbdef
    have hb : b < 10 ^ 16 := Nat.mod_lt _ (by positivity)
    have hfr2 : a * 10 ^ 16 + b = fr := by
      rw [hadef, hbdef, Nat.mul_comm]
      exact Nat.div_add_mod fr (10 ^ 16)
    have ha100 : a < 100 := by
      rw [hadef]
      have : fr < 100 * 10 ^ 16 := by norm_num at hfr ⊢; omega
      omega
    have hsplit : digitsRev fr = fixedDigitsRev 16 b ++ digitsRev a := by
      rw [← hfr2]
      exact digitsRev_split 16 a b (by omega) hb
    have hna : natStr fr = (digitsRev a).reverse ++ (fixedDigitsRev 16 b).reverse := by
      rw [natStr, hsplit, List.reverse_append]
    have hlena : (digitsRev a).length ≤ 2 := digitsRev_length_le 2 a (by omega) (by omega)
    have hlena1 : 1 ≤ (digitsRev a).length := digitsRev_length_pos a
    have hlenfr : (natStr fr).length = (digitsRev a).length + 16 := by
      rw [hna]
      simp [fixedDigitsRev_length]
    rw [hlenfr, hna]
    have hassoc :
        List.replicate (18 - ((digitsRev a).length + 16)) '0' ++
            ((digitsRev a).reverse ++ (fixedDigitsRev 16 b).reverse) =
          (List.replicate (2 - (digitsRev a).length) '0' ++ (digitsRev a).reverse) ++
            (fixedDigitsRev 16 b).reverse := by
      rw [List.append_assoc]
      congr 2
      omega
    rw [hassoc]
    have hfront : (List.replicate (2 - (digitsRev a).length) '0' ++ (digitsRev a).reverse).length = 2 := by
      simp
      omega
    rw [List.take_append_of_le_length (by omega), List.take_of_length_le (by omega)]
    rw [natStr]
    simp

/-- Counterexample to claim C3: on the integer decimal string `-1` the helper
does not truncate.  The value is `-10⁻¹⁸`, whose two-digit truncation is
`-0.00`, but Python's floor division and modulo produce `whole = -1` and an
all-nines fraction, so the helper renders `-1.99`. -/
theorem c3_trunc_counterexample :
    formatUnits_py (pys ("-1")) 18 = pys ("-1.99") ∧
    truncUnitsSpec (-1) = pys ("-0.00") ∧
    formatUnits_py (pys ("-1")) 18 ≠ truncUnitsSpec (-1) := by
  refine ⟨by with_unfolding_all rfl, by with_unfolding_all rfl, by decide⟩

/-- Claim C3 as amended: restricted to nonnegative parsed values the helper
is exactly the claim's truncating conversion — `formatUnits_py` agrees with
`truncUnitsSpec` (thousands-separated whole part, two truncated fractional
digits); the stated example evaluates to `1,500.00`; and any string that does
not parse as an integer is returned unchanged. -/
theorem c3_format_units_amended :
    formatUnits_py (pys ("1500000000000000000000")) 18 = pys ("1,500.00") ∧
    (∀ s, parseIntPy s = none → formatUnits_py s 18 = s) ∧
    (∀ s v, parseIntPy s = some v → 0 ≤ v → formatUnits_py s 18 = truncUnitsSpec v) := by
  refine ⟨by with_unfolding_all rfl, ?_, ?_⟩
  · intro s hnone
    unfold formatUnits_py
    rw [hnone]
  · intro s v hsome h0
    obtain ⟨m, rfl⟩ := Int.eq_ofNat_of_zero_le h0
    unfold formatUnits_py
    rw [hsome]
    have hpow : ((10 : Int) ^ 18) = ((10 ^ 18 : Nat) : Int) := by push_cast
    have hdiv : ((m : Int) / ((10 : Int) ^ 18)) = ((m / 10 ^ 18 : Nat) : Int) := by
      rw [hpow, ← Int.ofNat_ediv]
    have hmod : ((m : Int) % ((10 : Int) ^ 18)).toNat = m % 10 ^ 18 := by
      rw [hpow, ← Int.ofNat_emod]
      exact Int.toNat_ofNat _
    simp only [hdiv, hmod]
    have hth : formatThousandsInt ((m / 10 ^ 18 : Nat) : Int) = natThousands (m / 10 ^ 18) := by
      unfold formatThousandsInt
      rw [if_neg (by omega), Int.natAbs_ofNat]
      simp
    rw [hth]
    unfold truncUnitsSpec
    rw [if_neg (by omega), Int.natAbs_ofNat]
    rw [zfill_take_two (m % 10 ^ 18) (Nat.mod_lt _ (by positivity))]
    simp [List.append_assoc]

/-- Infixes compose transitively. -/
theorem infix_trans (a b c : PyStr) : a <:+: b → b <:+: c → a <:+: c := by
  rintro ⟨s, t, rfl⟩ ⟨u, v, rfl⟩
  exact ⟨u ++ s, t ++ v, by simp [List.append_assoc]⟩

/-- Every line of a joined line list is an infix of the joined text. -/
theorem joinNl_mem_inside (l : PyStr) (ls : List PyStr) (h : l ∈ ls) : l <:+: joinNl ls := by
  induction ls with
  | nil => cases h
  | cons x xs ih =>
    rcases List.mem_cons.mp h with rfl | hx
    · cases xs with
      | nil => exact ⟨[], [], by simp [joinNl]⟩
      | cons y ys => exact ⟨[], pys ("\n") ++ joinNl (y :: ys), by simp [joinNl]⟩
    · cases xs with
      | nil => cases hx
      | cons y ys =>
        obtain ⟨u, v, huv⟩ := ih hx
        exact ⟨(x ++ pys ("\n")) ++ u, v, by
          simp only [joinNl, List.append_assoc]
          rw [← List.append_assoc u l v, huv]⟩

/-- Counterexample to claim C2: on the all-absent snapshot (`{}`), the
formatter does not render a placeholder for the absent `fillPct` and
`runwayDays` — it renders the numeric defaults `0.0` and `0` instead.  The
full output is computed exactly; it contains `(0.0% full)` and
`Runway: 0 days` and no `?` placeholder at either position. -/
theorem c2_placeholder_counterexample :
    format_prompt emptyTreasury =
      pys ("Timestamp: unknown\nOverall Risk: UNKNOWN\n\n## Staking Pools\nPool A: ? / ? (0.0% full) — ?\nPool B: ? / ? (0.0% full) — ?\n\n## Reward Vault\nBalance: ? tokens\nEmission: ? tokens/day\nRunway: 0 days — ?\n\n## Lending Market\nUtilization: unavailable — ?\nVault TVL: unavailable\n\n## Priority Queue\nQueue Depth: unavailable — ?\n\nNo active alerts.") ∧
    hasOcc (pys ("(0.0% full)")) (format_prompt emptyTreasury) = true ∧
    hasOcc (pys ("Runway: 0 days")) (format_prompt emptyTreasury) = true ∧
    hasOcc (pys ("(?% full)")) (format_prompt emptyTreasury) = false ∧
    hasOcc (pys ("Runway: ?")) (format_prompt emptyTreasury) = false := by
  refine ⟨?_, ?_, ?_, ?_, ?_⟩ <;> set_option maxRecDepth 40000 in with_unfolding_all rfl

/-- Claim C2 as amended: on any snapshot the formatter is total by
construction and renders, for each absent optional field, the fallback the
code actually chooses — `"?"` for the string-valued fields, `"unavailable"`
for the `utilization`/`vaultTvlUsd`/`queueLink` numbers, but the numeric
defaults `0.0` for an absent `fillPct` and `0` for an absent `runwayDays`
(no `"?"`/`"unavailable"` placeholder for those two). -/
theorem c2_placeholders_amended (d : TreasurySnapshot) :
    (d.morpho.utilization = none → pys ("Utilization: unavailable") <:+: format_prompt d) ∧
    (d.morpho.vaultTvlUsd = none → pys ("Vault TVL: unavailable") <:+: format_prompt d) ∧
    (d.queue.queueLink = none → pys ("Queue Depth: unavailable") <:+: format_prompt d) ∧
    (d.staking.community.staked = none → pys ("Pool A: ?") <:+: format_prompt d) ∧
    (d.rewards.vaultBalance = none → pys ("Balance: ? tokens") <:+: format_prompt d) ∧
    (d.staking.community.fillPct = none → pys (" (0.0% full) — ") <:+: format_prompt d) ∧
    (d.rewards.runwayDays = none → pys ("Runway: 0 days — ") <:+: format_prompt d) := by
  have hF1 : pyFixed 1 (0 : Rat) = pys ("0.0") := by with_unfolding_all rfl
  have hF0 : pyFixed 0 (0 : Rat) = pys ("0") := by with_unfolding_all rfl
  refine ⟨fun h => ?_, fun h => ?_, fun h => ?_, fun h => ?_, fun h => ?_, fun h => ?_,
    fun h => ?_⟩
  · refine infix_trans _
      (pys ("Utilization: ") ++ util_str d.morpho ++ pys (" — ") ++ d.morpho.risk.getD (pys ("?")))
      _ ⟨[], pys (" — ") ++ d.morpho.risk.getD (pys ("?")), ?_⟩
      (joinNl_mem_inside _ _ (List.mem_append_left _ (by simp [treasury_lines])))
    rw [show util_str d.morpho = pys ("unavailable") from by simp [util_str, h]]
    rw [show pys ("Utilization: unavailable") = pys ("Utilization: ") ++ pys ("unavailable") from
      by decide]
    simp [List.append_assoc]
  · refine infix_trans _ (pys ("Vault TVL: ") ++ tvl_str d.morpho) _ ⟨[], [], ?_⟩
      (joinNl_mem_inside _ _ (List.mem_append_left _ (by simp [treasury_lines])))
    rw [show tvl_str d.morpho = pys ("unavailable") from by simp [tvl_str, h]]
    rw [show pys ("Vault TVL: unavailable") = pys ("Vault TVL: ") ++ pys ("unavailable") from
      by decide]
    simp [List.append_assoc]
  · refine infix_trans _
      (pys ("Queue Depth: ") ++ q_str d.queue ++ pys (" — ") ++ d.queue.risk.getD (pys ("?")))
      _ ⟨[], pys (" — ") ++ d.queue.risk.getD (pys ("?")), ?_⟩
      (joinNl_mem_inside _ _ (List.mem_append_left _ (by simp [treasury_lines])))
    rw [show q_str d.queue = pys ("unavailable") from by simp [q_str, h]]
    rw [show pys ("Queue Depth: unavailable") = pys ("Queue Depth: ") ++ pys ("unavailable") from
      by decide]
    simp [List.append_assoc]
  · refine infix_trans _
      (pys ("Pool A: ") ++ d.staking.community.staked.getD (pys ("?")) ++ pys (" / ") ++
        d.staking.community.cap.getD (pys ("?")) ++ pys (" (") ++
        pyFixed 1 (d.staking.community.fillPct.getD 0) ++ pys ("% full) — ") ++
        d.staking.community.risk.getD (pys ("?")))
      _ ⟨[], pys (" / ") ++ d.staking.community.cap.getD (pys ("?")) ++ pys (" (") ++
        pyFixed 1 (d.staking.community.fillPct.getD 0) ++ pys ("% full) — ") ++
        d.staking.community.risk.getD (pys ("?")), ?_⟩
      (joinNl_mem_inside _ _ (List.mem_append_left _ (by simp [treasury_lines])))
    rw [h]
    rw [show pys ("Pool A: ?") = pys ("Pool A: ") ++ pys ("?") from by decide]
    simp [List.append_assoc, Option.getD]
  · refine infix_trans _
      (pys ("Balance: ") ++ d.rewards.vaultBalance.getD (pys ("?")) ++ pys (" tokens")) _
      ⟨[], [], ?_⟩
      (joinNl_mem_inside _ _ (List.mem_append_left _ (by simp [treasury_lines])))
    rw [h]
    rw [show pys ("Balance: ? tokens") = pys ("Balance: ") ++ pys ("?") ++ pys (" tokens") from
      by decide]
    simp [List.append_assoc, Option.getD]
  · refine infix_trans _
      (pys ("Pool A: ") ++ d.staking.community.staked.getD (pys ("?")) ++ pys (" / ") ++
        d.staking.community.cap.getD (pys ("?")) ++ pys (" (") ++
        pyFixed 1 (d.staking.community.fillPct.getD 0) ++ pys ("% full) — ") ++
        d.staking.community.risk.getD (pys ("?")))
      _ ⟨pys ("Pool A: ") ++ d.staking.community.staked.getD (pys ("?")) ++ pys (" / ") ++
        d.staking.community.cap.getD (pys ("?")),
        d.staking.community.risk.getD (pys ("?")), ?_⟩
      (joinNl_mem_inside _ _ (List.mem_append_left _ (by simp [treasury_lines])))
    rw [h]
    have hfill : pyFixed 1 ((none : Option Rat).getD 0) = pys ("0.0") := hF1
    rw [hfill]
    rw [show pys (" (0.0% full) — ") = pys (" (") ++ pys ("0.0") ++ pys ("% full) — ") from
      by decide]
    simp [List.append_assoc]
  · refine infix_trans _
      (pys ("Runway: ") ++ pyFixed 0 (d.rewards.runwayDays.getD 0) ++ pys (" days — ") ++
        d.rewards.risk.getD (pys ("?")))
      _ ⟨[], d.rewards.risk.getD (pys ("?")), ?_⟩
      (joinNl_mem_inside _ _ (List.mem_append_left _ (by simp [treasury_lines])))
    rw [h]
    have hrun : pyFixed 0 ((none : Option Rat).getD 0) = pys ("0") := hF0
    rw [hrun]
    rw [show pys ("Runway: 0 days — ") = pys ("Runway: ") ++ pys ("0") ++ pys (" days — ") from
      by decide]
    simp [List.append_assoc]

/-- Witness for the amended C2 at the all-absent snapshot. -/
theorem c2_placeholders_witness :
    pys ("Utilization: unavailable") <:+: format_prompt emptyTreasury ∧
    pys (" (0.0% full) — ") <:+: format_prompt emptyTreasury ∧
    pys ("Runway: 0 days — ") <:+: format_prompt emptyTreasury :=
  ⟨(c2_placeholders_amended emptyTreasury).1 rfl,
   (c2_placeholders_amended emptyTreasury).2.2.2.2.2.1 rfl,
   (c2_placeholders_amended emptyTreasury).2.2.2.2.2.2 rfl⟩

/-- Witness for the amended C3: a non-parseable input is returned unchanged
and a concrete nonnegative value agrees with the truncating conversion. -/
theorem c3_format_units_witness :
    formatUnits_py (pys ("abc")) 18 = pys ("abc") ∧
    formatUnits_py (pys ("2512000000000000000")) 18 = truncUnitsSpec 2512000000000000000 :=
  ⟨c3_format_units_amended.2.1 (pys ("abc")) (by decide),
   c3_format_units_amended.2.2 (pys ("2512000000000000000")) 2512000000000000000
     (by decide) (by decide)⟩

/-- A nonempty pattern is never a prefix of the empty string. -/
theorem isPrefixOf_nil_false (p : PyStr) (hp : p ≠ []) : p.isPrefixOf [] = false := by
  cases p with
  | nil => exact absurd rfl hp
  | cons c cs => rfl

/-- `hasOcc` is the existence of a position where the pattern is a prefix of
the remaining text. -/
theorem hasOcc_exists (p : PyStr) (hp : p ≠ []) :
    ∀ s, hasOcc p s = true ↔ ∃ i, p.isPrefixOf (s.drop i) = true := by
  intro s
  induction s with
  | nil =>
    simp [hasOcc, List.isEmpty_iff, hp, isPrefixOf_nil_false p hp]
  | cons c rest ih =>
    constructor
    · intro h
      have hor : (p.isPrefixOf (c :: rest) || hasOcc p rest) = true := h
      rcases Bool.or_eq_true_iff.mp hor with h' | h'
      · exact ⟨0, h'⟩
      · obtain ⟨i, hi⟩ := ih.mp h'
        exact ⟨i + 1, by simpa using hi⟩
    · rintro ⟨i, hi⟩
      cases i with
      | zero =>
        simp only [List.drop_zero] at hi
        simp [hasOcc, hi]
      | succ i =>
        simp only [List.drop_succ_cons] at hi
        simp [hasOcc, ih.mpr ⟨i, hi⟩]

/-- A pattern that is a prefix of `s ++ w` and no longer than `s` is a prefix
of `s`. -/
theorem prefix_append_left (p s w : PyStr) (h : p <+: s ++ w) (hl : p.length ≤ s.length) :
    p <+: s := by
  have h1 : p = (s ++ w).take p.length := List.prefix_iff_eq_take.mp h
  rw [List.take_append_of_le_length hl] at h1
  exact h1 ▸ List.take_prefix _ _

/-- If a pattern no shorter than `s` is a prefix of `s ++ w`, then `s` is a
prefix of the pattern. -/
theorem prefix_append_small (p s w : PyStr) (h : p <+: s ++ w) (hl : s.length ≤ p.length) :
    s <+: p := by
  obtain ⟨r, hr⟩ := h
  have h1 : (p ++ r).take s.length = (s ++ w).take s.length := by rw [hr]
  rw [List.take_append_of_le_length hl, List.take_left] at h1
  exact h1 ▸ List.take_prefix _ _

/-- A nonempty tail of a list ends in the same character as the list. -/
theorem getLast?_drop_ne (m : PyStr) (i : Nat) (h : m.drop i ≠ []) :
    (m.drop i).getLast? = m.getLast? := by
  conv_rhs => rw [← List.take_append_drop i m]
  rw [List.getLast?_append]
  cases hx : (m.drop i).getLast? with
  | none => exact absurd (List.getLast?_eq_none_iff.mp hx) h
  | some x => rfl

/-- A nonempty prefix of the fence ends in a backtick. -/
theorem prefix_bt_getLast (s : PyStr) (h : s <+: pys ("```")) (hne : s ≠ []) :
    s.getLast? = some '`' := by
  have hs : s = (pys ("```")).take s.length := List.prefix_iff_eq_take.mp h
  have hl1 : 1 ≤ s.length := by
    cases s with
    | nil => exact absurd rfl hne
    | cons c cs => simp
  have hl3 : s.length ≤ 3 := by
    have := List.IsPrefix.length_le h
    simpa [pys] using this
  interval_cases hlen : s.length
  · rw [hs]; rfl
  · rw [hs]; rfl
  · rw [hs]; rfl

/-- If the fence does not occur in `t`, it does not occur in
`"json\n" ++ t ++ "\n"` either: the added characters are not backticks, and
an occurrence cannot straddle them. -/
theorem no_occ_wrapped (t : PyStr) (hocc : hasOcc (pys ("```")) t = false) :
    hasOcc (pys ("```")) (pys ("json\n") ++ t ++ pys ("\n")) = false := by
  by_contra hcon
  have htrue : hasOcc (pys ("```")) (pys ("json\n") ++ t ++ pys ("\n")) = true := by
    simpa using hcon
  obtain ⟨i, hi⟩ := (hasOcc_exists (pys ("```")) (by decide) _).mp htrue
  by_cases h5 : i < 5
  · rw [show pys ("json\n") ++ t ++ pys ("\n") =
        'j' :: 's' :: 'o' :: 'n' :: '\n' :: (t ++ pys ("\n")) from rfl] at hi
    interval_cases i <;> simp [List.isPrefixOf, pys] at hi
  · obtain ⟨k, rfl⟩ := Nat.exists_eq_add_of_le (Nat.le_of_not_lt h5)
    rw [show pys ("json\n") ++ t ++ pys ("\n") =
          pys ("json\n") ++ (t ++ pys ("\n")) from by simp [List.append_assoc],
        List.drop_append_eq_append_drop,
        show (pys ("json\n")).drop (5 + k) = [] from by
          apply List.drop_eq_nil_of_le; simp [pys],
        show (5 + k) - (pys ("json\n")).length = k from by simp [pys],
        List.nil_append] at hi
    have hpre : pys ("```") <+: (t ++ pys ("\n")).drop k := List.isPrefixOf_iff_prefix.mp hi
    by_cases hk : k < t.length
    · rw [List.drop_append_eq_append_drop,
          show k - t.length = 0 from by omega, List.drop_zero] at hpre
      have hne : t.drop k ≠ [] := by
        intro hc
        have := List.drop_eq_nil_iff_le.mp hc
        omega
      by_cases h3 : 3 ≤ (t.drop k).length
      · have hp3 : pys ("```") <+: t.drop k :=
          prefix_append_left _ _ _ hpre (by simpa [pys] using h3)
        have : hasOcc (pys ("```")) t = true :=
          (hasOcc_exists (pys ("```")) (by decide) _).mpr
            ⟨k, List.isPrefixOf_iff_prefix.mpr hp3⟩
        rw [hocc] at this
        cases this
      · have hlen2 : t.length - k = 2 := by
          have hge := List.IsPrefix.length_le hpre
          simp [pys] at hge h3
          omega
        have heq : pys ("```") = t.drop k ++ pys ("\n") :=
          List.IsPrefix.eq_of_length hpre (by simp [pys, hlen2])
        have hlast := congrArg List.getLast? heq
        rw [show pys ("\n") = ['\n'] from rfl, List.getLast?_concat] at hlast
        exact absurd hlast (by decide)
    · rw [List.drop_append_eq_append_drop,
          List.drop_eq_nil_of_le (by omega), List.nil_append] at hpre
      have hle := List.IsPrefix.length_le hpre
      have : ((pys ("\n")).drop (k - t.length)).length ≤ 1 := by
        simp [pys]
      simp [pys] at hle
      omega

/-- If the fence does not occur in `m` and `m` ends in a newline, then at no
scan position inside `m` does the fence start — even accounting for the
closing fence appended right after `m`. -/
theorem noPref_aux (m : PyStr) (hm : hasOcc (pys ("```")) m = false)
    (hlast : m.getLast? = some '\n') :
    ∀ i, i < m.length → (pys ("```")).isPrefixOf (m.drop i ++ pys ("```")) = false := by
  intro i hi
  by_contra hcon
  have hpre : pys ("```") <+: (m.drop i ++ pys ("```")) :=
    List.isPrefixOf_iff_prefix.mp (by simpa using hcon)
  have hne : m.drop i ≠ [] := by
    intro hc
    have := List.drop_eq_nil_iff_le.mp hc
    omega
  by_cases h3 : 3 ≤ (m.drop i).length
  · have hp3 : pys ("```") <+: m.drop i :=
      prefix_append_left _ _ _ hpre (by simpa [pys] using h3)
    have : hasOcc (pys ("```")) m = true :=
      (hasOcc_exists (pys ("```")) (by decide) _).mpr ⟨i, List.isPrefixOf_iff_prefix.mpr hp3⟩
    rw [hm] at this
    cases this
  · have hsp : m.drop i <+: pys ("```") :=
      prefix_append_small _ _ _ hpre (by
        simp only [List.length_drop] at h3 ⊢
        simp [pys]
        omega)
    have hbt := prefix_bt_getLast _ hsp hne
    rw [getLast?_drop_ne m i hne, hlast] at hbt
    exact absurd hbt (by decide)

/-- `pySplitAux` on the empty input. -/
theorem pySplitAux_nil (sep : PyStr) (fuel : Nat) (acc : PyStr) :
    pySplitAux sep fuel [] acc = [acc.reverse] := by
  cases fuel <;> rfl

/-- Scanning `m ++ sep` when the separator starts at no position inside `m`:
the scan consumes `m` as the current chunk, splits at the final separator,
and ends with an empty last chunk. -/
theorem pySplitAux_scan (sep : PyStr) (hsep : sep ≠ []) :
    ∀ (m : PyStr) (fuel : Nat) (acc : PyStr), m.length < fuel →
      (∀ i, i < m.length → sep.isPrefixOf (m.drop i ++ sep) = false) →
      pySplitAux sep fuel (m ++ sep) acc = [acc.reverse ++ m, []] := by
  intro m
  induction m with
  | nil =>
    intro fuel acc hf _
    cases fuel with
    | zero => omega
    | succ f =>
      obtain ⟨c, cs, rfl⟩ : ∃ c cs, sep = c :: cs := by
        cases sep with
        | nil => exact absurd rfl hsep
        | cons c cs => exact ⟨c, cs, rfl⟩
      rw [List.nil_append]
      simp only [pySplitAux]
      rw [if_pos (List.isPrefixOf_iff_prefix.mpr (by simp))]
      rw [show List.drop (c :: cs).length (c :: cs) = [] from List.drop_length _]
      rw [pySplitAux_nil]
      simp
  | cons c0 m' ih =>
    intro fuel acc hf hnp
    cases fuel with
    | zero => simp at hf
    | succ f =>
      rw [List.cons_append]
      simp only [pySplitAux]
      rw [if_neg (by
        have h0 := hnp 0 (by simp)
        rw [List.drop_zero, List.cons_append] at h0
        simp [h0])]
      rw [ih f (c0 :: acc) (by simpa using hf) (fun i hi => by
        have := hnp (i + 1) (by simpa using Nat.succ_lt_succ hi)
        simpa [List.drop_succ_cons] using this)]
      simp

/-- Stripping does nothing to a string that starts and ends with the fence. -/
theorem pyStrip_bt_ends (u : PyStr) :
    pyStrip (pys ("```") ++ u ++ pys ("```")) = pys ("```") ++ u ++ pys ("```") := by
  have h1 : List.dropWhile isPySpace (pys ("```") ++ u ++ pys ("```")) =
      pys ("```") ++ u ++ pys ("```") := by
    rw [show pys ("```") ++ u ++ pys ("```") =
      '`' :: ('`' :: '`' :: (u ++ pys ("```"))) from by simp [pys]]
    rw [List.dropWhile_cons_of_neg (by decide)]
  have h2 : (pys ("```") ++ u ++ pys ("```")).reverse =
      '`' :: ('`' :: '`' :: (u.reverse ++ ['`', '`', '`'])) := by
    rw [show pys ("```") ++ u ++ pys ("```") =
      (pys ("```") ++ u) ++ pys ("```") from by simp [List.append_assoc]]
    rw [List.reverse_append, List.reverse_append]
    rfl
  unfold pyStrip
  rw [h1, h2, List.dropWhile_cons_of_neg (by decide), ← h2, List.reverse_reverse]

/-- Stripping drops a leading whitespace character. -/
theorem pyStrip_cons_ws (c : Char) (s : PyStr) (h : isPySpace c = true) :
    pyStrip (c :: s) = pyStrip s := by
  unfold pyStrip
  rw [List.dropWhile_cons_of_pos h]

/-- Stripping drops a trailing whitespace character. -/
theorem pyStrip_concat_ws (s : PyStr) (c : Char) (h : isPySpace c = true) :
    pyStrip (s ++ [c]) = pyStrip s := by
  unfold pyStrip
  rw [List.dropWhile_append]
  by_cases he : (List.dropWhile isPySpace s).isEmpty = true
  · rw [if_pos he]
    rw [List.isEmpty_iff.mp he]
    simp [List.dropWhile, h]
  · rw [if_neg he]
    rw [List.reverse_append]
    rw [show ([c].reverse : PyStr) = [c] from rfl]
    rw [List.singleton_append, List.dropWhile_cons_of_pos h]

/-- The stripped string sits inside the original. -/
theorem pyStrip_infix (s : PyStr) : ∃ u v, u ++ pyStrip s ++ v = s := by
  obtain ⟨u, hu⟩ : List.dropWhile isPySpace s <:+ s := List.dropWhile_suffix _
  obtain ⟨w, hw⟩ : List.dropWhile isPySpace (List.dropWhile isPySpace s).reverse <:+
      (List.dropWhile isPySpace s).reverse := List.dropWhile_suffix _
  refine ⟨u, w.reverse, ?_⟩
  have hd : List.dropWhile isPySpace s =
      (List.dropWhile isPySpace (List.dropWhile isPySpace s).reverse).reverse ++ w.reverse := by
    have := congrArg List.reverse hw
    rw [List.reverse_append, List.reverse_reverse] at this
    exact this.symm
  have hps : pyStrip s =
      (List.dropWhile isPySpace (List.dropWhile isPySpace s).reverse).reverse := rfl
  rw [hps, List.append_assoc, ← hd, hu]

/-- If the fence is a prefix of the stripped text, it occurs in the text. -/
theorem hasOcc_of_prefix_strip (t : PyStr)
    (h : (pys ("```")).isPrefixOf (pyStrip t) = true) : hasOcc (pys ("```")) t = true := by
  obtain ⟨u, v, huv⟩ := pyStrip_infix t
  obtain ⟨w, hw⟩ := List.isPrefixOf_iff_prefix.mp h
  apply (hasOcc_exists (pys ("```")) (by decide) t).mpr
  refine ⟨u.length, List.isPrefixOf_iff_prefix.mpr ⟨w ++ v, ?_⟩⟩
  have ht : t = u ++ (pyStrip t ++ v) := by rw [← List.append_assoc, huv]
  conv_rhs => rw [ht]
  rw [List.drop_left, ← hw]
  simp [List.append_assoc]

/-- One step of `pySplitAux` on a nonempty input. -/
theorem pySplitAux_cons (sep : PyStr) (f : Nat) (c : Char) (rest acc : PyStr) :
    pySplitAux sep (f + 1) (c :: rest) acc =
      if sep.isPrefixOf (c :: rest) = true then
        acc.reverse :: pySplitAux sep f (List.drop sep.length (c :: rest)) []
      else pySplitAux sep f rest (c :: acc) := rfl

/-- Splitting a fenced text on the fence when the fence does not occur in the
middle part: exactly three chunks. -/
theorem pySplit_fenced (M : PyStr)
    (hnp : ∀ i, i < M.length → (pys ("```")).isPrefixOf (M.drop i ++ pys ("```")) = false) :
    pySplit (pys ("```")) (pys ("```") ++ M ++ pys ("```")) = [[], M, []] := by
  unfold pySplit
  rw [if_neg (by decide)]
  have hcons : pys ("```") ++ M ++ pys ("```") = '`' :: '`' :: '`' :: (M ++ pys ("```")) := by
    simp [pys, List.append_assoc]
  have hflen : (pys ("```") ++ M ++ pys ("```")).length = (M.length + 5) + 1 := by
    simp [pys]
  rw [hflen, hcons]
  rw [pySplitAux_cons]
  rw [if_pos (List.isPrefixOf_iff_prefix.mpr
    (show pys ("```") <+: ('`' :: '`' :: '`' :: (M ++ pys ("```"))) from
      List.prefix_append _ _))]
  rw [show ('`' :: '`' :: '`' :: (M ++ pys ("```")) : PyStr) =
    pys ("```") ++ (M ++ pys ("```")) from rfl]
  rw [List.drop_left]
  rw [pySplitAux_scan (pys ("```")) (by decide) M (M.length + 5) [] (by omega) hnp]
  rfl

/-- Claim C4 as amended: for every text `t` in which the triple-backtick
fence does not occur, validating the fenced form ```` ```json\n t \n``` ````
and validating the bare form `t` reach `json.loads` with the identical
string `t.strip()` — the fence-stripping step is invisible.  (The
counterexample shows this fails when `t` itself contains ``` ``` ``, because
`split("```")` also splits inside JSON string literals.) -/
theorem c4_fence_transparent (t : PyStr) (hocc : hasOcc (pys ("```")) t = false) :
    extractJson (pys ("```json\n") ++ t ++ pys ("\n```")) = pyStrip t ∧
    extractJson t = pyStrip t := by
  constructor
  · have hF : pys ("```json\n") ++ t ++ pys ("\n```") =
        pys ("```") ++ (pys ("json\n") ++ t ++ pys ("\n")) ++ pys ("```") := by
      simp [pys, List.append_assoc]
    rw [hF]
    have hlast : (pys ("json\n") ++ t ++ pys ("\n")).getLast? = some '\n' :=
      List.getLast?_concat _
    have hnp := noPref_aux _ (no_occ_wrapped t hocc) hlast
    simp only [extractJson]
    rw [pyStrip_bt_ends]
    rw [if_pos (List.isPrefixOf_iff_prefix.mpr (by
      rw [List.append_assoc]
      exact List.prefix_append _ _))]
    rw [pySplit_fenced _ hnp]
    rw [show ([[], pys ("json\n") ++ t ++ pys ("\n"), []].getD 1 [] : PyStr) =
      pys ("json\n") ++ t ++ pys ("\n") from rfl]
    rw [if_pos (List.isPrefixOf_iff_prefix.mpr (by
      rw [show pys ("json\n") ++ t ++ pys ("\n") =
        pys ("json") ++ ('\n' :: (t ++ pys ("\n"))) from by simp [pys, List.append_assoc]]
      exact List.prefix_append _ _))]
    rw [show pys ("json\n") ++ t ++ pys ("\n") =
      pys ("json") ++ ('\n' :: (t ++ pys ("\n"))) from by simp [pys, List.append_assoc]]
    rw [show (4 : Nat) = (pys ("json")).length from rfl, List.drop_left]
    rw [pyStrip_cons_ws '\n' _ (by decide)]
    rw [show (pys ("\n") : PyStr) = ['\n'] from rfl]
    rw [pyStrip_concat_ws t '\n' (by decide)]
  · simp only [extractJson]
    rw [if_neg (by
      intro hcon
      have := hasOcc_of_prefix_strip t hcon
      rw [hocc] at this
      cases this)]

/-- Counterexample to claim C4: for the JSON text `"a```b"` (a JSON string
containing a triple backtick), the bare form validates to the string value,
but the fenced form does not validate to an equal result — `split("```")`
cuts inside the JSON string literal, leaving the unparsable remainder
`"a`, so validation errors out instead. -/
theorem c4_fence_counterexample :
    pyJsonLoads (extractJson (pys ("\"a```b\""))) = JOut.ok (JValue.jstr (pys ("a```b"))) ∧
    pyJsonLoads (extractJson (pys ("```json\n\"a```b\"\n```"))) =
      JOut.err (pys ("Unterminated string")) ∧
    pyJsonLoads (extractJson (pys ("```json\n\"a```b\"\n```"))) ≠
      pyJsonLoads (extractJson (pys ("\"a```b\""))) := by
  have h1 : pyJsonLoads (extractJson (pys ("\"a```b\""))) =
      JOut.ok (JValue.jstr (pys ("a```b"))) := by with_unfolding_all rfl
  have h2 : pyJsonLoads (extractJson (pys ("```json\n\"a```b\"\n```"))) =
      JOut.err (pys ("Unterminated string")) := by with_unfolding_all rfl
  refine ⟨h1, h2, ?_⟩
  rw [h1, h2]
  exact fun hcon => JOut.noConfusion hcon

/-- Witness for the amended C4 at a fence-free JSON object text. -/
theorem c4_fence_witness :
    extractJson (pys ("```json\n") ++ pys ("\x7b\"a\": 1\x7d") ++ pys ("\n```")) =
      pyStrip (pys ("\x7b\"a\": 1\x7d")) ∧
    extractJson (pys ("\x7b\"a\": 1\x7d")) = pyStrip (pys ("\x7b\"a\": 1\x7d")) :=
  c4_fence_transparent (pys ("\x7b\"a\": 1\x7d")) (by decide)
